import Mathlib

/-!
Verification of the Jenkins MCP server core
(`src/jenkins_mcp/jenkins_mcp_server_enhanced.py`).

This file gives a shallow embedding, in Lean 4, of the pieces of the server
that carry real invariants: parameter normalization
(`process_jenkins_parameters`), the CSRF crumb cache (`get_jenkins_crumb`),
nested job-path URL encoding (`jenkins_request_nested`), the recursive tree
walk (`_collect_jobs_recursive`), the pattern search (`search_jobs`), job
resolution with search fallback (`get_job_info`), exactness-gated triggering
(`search_and_trigger`), and the trigger parameter extraction (`trigger_job`).

Remote HTTP interactions are modelled as explicit oracles (functions from a
path to an `Except`-valued response), so every operation becomes a pure,
executable Lean function.  Python dictionaries are modelled as association
lists in insertion order; Python truthiness is modelled explicitly where the
source relies on it.
-/

namespace JenkinsMCP

/-- Model of a Python value as it appears in the server's parameter
dictionaries (`Dict[str, Any]`).  Dictionaries are association lists in
insertion order. -/
inductive PyValue where
  | str (s : String)
  | bool (b : Bool)
  | int (n : Int)
  | list (l : List PyValue)
  | dict (d : List (String × PyValue))

/-- Comma/`", "`-style joins (the model of Python's `sep.join(...)`). -/
def strJoin (sep : String) : List String → String
  | [] => ""
  | [p] => p
  | p :: rest => p ++ sep ++ strJoin sep rest

mutual

/-- Python's `repr` for the modelled values (used by `str` on containers).
String escaping inside `repr` is not modelled (the server never relies on
it). -/
def pyReprOf : PyValue → String
  | .str s => "'" ++ s ++ "'"
  | .bool b => if b then "True" else "False"
  | .int n => toString n
  | .list l => "[" ++ strJoin ", " (pyReprList l) ++ "]"
  | .dict d => "\x7b" ++ strJoin ", " (pyReprDict d) ++ "\x7d"

def pyReprList : List PyValue → List String
  | [] => []
  | v :: rest => pyReprOf v :: pyReprList rest

def pyReprDict : List (String × PyValue) → List String
  | [] => []
  | (k, v) :: rest => ("'" ++ k ++ "': " ++ pyReprOf v) :: pyReprDict rest

end

/-- Python's `str(value)` on the modelled values. -/
def pyStrOf : PyValue → String
  | .str s => s
  | .bool b => if b then "True" else "False"
  | .int n => toString n
  | .list l => pyReprOf (.list l)
  | .dict d => pyReprOf (.dict d)

/-- Python truthiness of a modelled value (`if value:`). -/
def pyTruthyV : PyValue → Bool
  | .str s => s ≠ ""
  | .bool b => b
  | .int n => n ≠ 0
  | .list l => !l.isEmpty
  | .dict d => !d.isEmpty

/-- Lookup `d.get(key)` on a modelled dictionary: first binding wins. -/
def assocGet (d : List (String × PyValue)) (key : String) : Option PyValue :=
  match d.find? (fun kv => kv.1 == key) with
  | some kv => some kv.2
  | none => none

/-- Value normalization performed by `process_jenkins_parameters` on a single
parameter value (source lines 84-92): a list becomes the comma-join of the
`str` forms of its elements, a boolean becomes `str(value).lower()`
(`"true"`/`"false"`), anything else becomes `str(value)`. -/
def processParamValue : PyValue → String
  | .list l => strJoin "," (l.map pyStrOf)
  | .bool b => if b then "true" else "false"
  | v => pyStrOf v

/-- Model of `process_jenkins_parameters` (source lines 77-94): normalizes every value
of the parameter dictionary to a string, keeping keys and insertion order. -/
def process_jenkins_parameters (params : List (String × PyValue)) :
    List (String × String) :=
  params.map fun kv => (kv.1, processParamValue kv.2)

/-! ## CSRF crumb cache (`_crumb_cache`, `get_jenkins_crumb`) -/

/-- The global crumb cache `_crumb_cache` (source lines 51-55): a cached token
and its expiry instant.  Time is modelled in seconds as a `Nat`; the lock is
modelled by treating each `get_jenkins_crumb` call as one atomic step (the
source holds `_crumb_cache["lock"]` across the whole body). -/
structure CrumbCache where
  token : Option String
  expires : Option Nat
  deriving DecidableEq

/-- The JSON body of `GET /crumbIssuer/api/json`, pre-parsed: the `crumb`
field may be missing (`crumb_data.get("crumb")`). -/
structure CrumbResponse where
  crumb : Option String
  deriving DecidableEq

/-- The validity check of source lines 168-169:
`_crumb_cache["token"] and _crumb_cache["expires"] and now < expires`.
Python truthiness makes an empty-string token fail the first conjunct; a
cached `datetime` is always truthy, so `expires` only needs to be present. -/
def crumbCacheValid (c : CrumbCache) (now : Nat) : Bool :=
  match c.token, c.expires with
  | some t, some e => t ≠ "" && now < e
  | _, _ => false

/-- Model of `get_jenkins_crumb` (source lines 162-196).  The network interaction
(`requests.get` + `raise_for_status` + `response.json()`) is the oracle
`fetch`; an `Except.error` covers every `RequestException` the source
catches.  Returns the crumb (or `none`) together with the updated cache.
The source caches a fetched crumb for 30 minutes, and only when the crumb is
truthy (`if crumb_token:`), i.e. present and non-empty. -/
def get_jenkins_crumb (cache : CrumbCache) (now : Nat)
    (fetch : Except String CrumbResponse) : Option String × CrumbCache :=
  if crumbCacheValid cache now then
    (cache.token, cache)
  else
    match fetch with
    | .ok resp =>
      match resp.crumb with
      | some tok =>
        if tok ≠ "" then
          (some tok, { token := some tok, expires := some (now + 30 * 60) })
        else
          (none, cache)
      | none => (none, cache)
    | .error _ => (none, cache)

/-- Reachability invariant of the crumb cache: the source never stores an
empty token (`if crumb_token:` guards the store). -/
def CrumbWF (c : CrumbCache) : Prop :=
  ∀ t, c.token = some t → t ≠ ""

/-- Whether a `get_jenkins_crumb` call at time `now` performs a network fetch:
exactly when the cached token is not valid at `now`. -/
def crumbDidFetch (cache : CrumbCache) (now : Nat) : Bool :=
  !(crumbCacheValid cache now)

/-- The initial cache `{"token": None, "expires": None}` is well-formed. -/
theorem crumbWF_init : CrumbWF { token := none, expires := none } := by
  intro t h
  cases h

/-- Every `get_jenkins_crumb` call preserves the cache invariant. -/
theorem crumbWF_preserved (cache : CrumbCache) (now : Nat)
    (fetch : Except String CrumbResponse) (h : CrumbWF cache) :
    CrumbWF (get_jenkins_crumb cache now fetch).2 := by
  unfold get_jenkins_crumb
  split
  · exact h
  · rcases fetch with e | resp
    · exact h
    · rcases hc : resp.crumb with _ | tok
      · simp [hc]; exact h
      · simp only [hc]
        by_cases ht : tok = ""
        · simp [ht]; exact h
        · simp only [ht, if_pos, ne_eq, not_false_eq_true, if_true]
          intro t hsome
          cases hsome
          exact ht

/-! ## Nested path encoding (`jenkins_request_nested`, source lines 199-208) -/

/-- The characters `urllib.parse.quote` leaves unescaped when `safe=''`:
ASCII letters, digits, and `_.-~`. -/
def isSafeChar (c : Char) : Bool :=
  (65 ≤ c.toNat && c.toNat ≤ 90) || (97 ≤ c.toNat && c.toNat ≤ 122) ||
  (48 ≤ c.toNat && c.toNat ≤ 57) ||
  c.toNat = 45 || c.toNat = 46 || c.toNat = 95 || c.toNat = 126

/-- Upper-case hexadecimal digit, as used by `quote`'s `%XX` escapes. -/
def hexDigit (n : Nat) : Char :=
  if n < 10 then Char.ofNat (48 + n) else Char.ofNat (55 + n)

/-- Model of `urllib.parse.quote(·, safe='')` on a single character: a safe ASCII
character is kept, every other character has each of its UTF-8 bytes
percent-encoded as `%XX`. -/
def quoteChar (c : Char) : List Char :=
  if isSafeChar c then [c]
  else (String.utf8EncodeChar c).flatMap fun b =>
    ['%', hexDigit (b.toNat / 16), hexDigit (b.toNat % 16)]

/-- Model of `urllib.parse.quote(s, safe='')` over a character list. -/
def pythonQuoteChars (l : List Char) : List Char :=
  l.flatMap quoteChar

/-- Python's `job_path.split('/')`: splitting keeps empty segments and maps
the empty string to `[""]`. -/
def pySplitSlash : List Char → List (List Char)
  | [] => [[]]
  | '/' :: rest => [] :: pySplitSlash rest
  | c :: rest =>
    match pySplitSlash rest with
    | [] => [[c]]
    | g :: gs => (c :: g) :: gs

/-- The `'/job/'` separator used by `'/job/'.join(encoded_parts)`. -/
def sepJob : List Char := ['/', 'j', 'o', 'b', '/']

/-- Model of `'/job/'.join(...)` at the character-list level. -/
def joinJobChars : List (List Char) → List Char
  | [] => []
  | [p] => p
  | p :: rest => p ++ sepJob ++ joinJobChars rest

/-- The encoded nested path built by `jenkins_request_nested` (source lines
204-206): split the job path on `/`, percent-encode each segment
independently, rejoin with `/job/`. -/
def encodedNestedPath (job_path : String) : String :=
  String.mk (joinJobChars ((pySplitSlash job_path.data).map pythonQuoteChars))

/-- The full URL built by `jenkins_request_nested` (source line 208). -/
def nestedUrl (base job_path endpoint_suffix : String) : String :=
  base ++ "/job/" ++ encodedNestedPath job_path ++ "/" ++ endpoint_suffix

/-- Number of occurrences of the substring `/job/`, counted non-overlapping
from the left exactly as Python's `str.count` does. -/
def countJobSep : List Char → Nat
  | [] => 0
  | c :: rest =>
    if c = '/' ∧ rest.take 4 = ['j', 'o', 'b', '/'] then
      countJobSep (rest.drop 4) + 1
    else
      countJobSep rest
termination_by l => l.length
decreasing_by
  all_goals simp [List.length_drop]
  all_goals omega

theorem hexDigit_ne_slash : ∀ n, n < 16 → hexDigit n ≠ '/' := by decide

theorem quoteChar_ne_slash (c : Char) : '/' ∉ quoteChar c := by
  unfold quoteChar
  split
  · intro hmem
    rename_i hsafe
    rcases List.mem_singleton.mp hmem with rfl
    revert hsafe
    decide
  · intro hmem
    rcases List.mem_flatMap.mp hmem with ⟨b, _, hb⟩
    have h256 : b.toNat < 256 := b.toNat_lt
    simp only [List.mem_cons, List.not_mem_nil, or_false] at hb
    rcases hb with h | h | h
    · exact absurd h (by decide)
    · exact (hexDigit_ne_slash _ (by omega)) h.symm
    · exact (hexDigit_ne_slash _ (by omega)) h.symm

theorem pythonQuoteChars_no_slash (l : List Char) :
    ∀ c ∈ pythonQuoteChars l, c ≠ '/' := by
  intro c hc heq
  subst heq
  rcases List.mem_flatMap.mp hc with ⟨d, _, hd⟩
  exact quoteChar_ne_slash d hd

theorem countJobSep_append (l s : List Char) (h : ∀ c ∈ l, c ≠ '/') :
    countJobSep (l ++ s) = countJobSep s := by
  induction l with
  | nil => rfl
  | cons c l ih =>
    have hc : c ≠ '/' := h c (List.mem_cons_self c l)
    rw [List.cons_append, countJobSep, if_neg]
    · exact ih fun d hd => h d (List.mem_cons_of_mem c hd)
    · intro hcontra
      exact hc hcontra.1

theorem countJobSep_nil : countJobSep [] = 0 := by
  rw [countJobSep]

theorem countJobSep_no_slash (l : List Char) (h : ∀ c ∈ l, c ≠ '/') :
    countJobSep l = 0 := by
  have := countJobSep_append l [] h
  simpa [countJobSep_nil] using this

theorem countJobSep_sep (s : List Char) :
    countJobSep (sepJob ++ s) = countJobSep s + 1 := by
  rw [show sepJob ++ s = '/' :: ('j' :: 'o' :: 'b' :: '/' :: s) from rfl]
  rw [countJobSep, if_pos]
  · simp
  · constructor
    · rfl
    · rfl

theorem countJobSep_joinJob (parts : List (List Char)) (hne : parts ≠ [])
    (h : ∀ p ∈ parts, ∀ c ∈ p, c ≠ '/') :
    countJobSep (joinJobChars parts) = parts.length - 1 := by
  induction parts with
  | nil => exact absurd rfl hne
  | cons p rest ih =>
    cases rest with
    | nil =>
      simpa [joinJobChars] using
        countJobSep_no_slash p (h p (List.mem_cons_self p []))
    | cons q rest2 =>
      have hp : ∀ c ∈ p, c ≠ '/' := h p (List.mem_cons_self _ _)
      have htail : ∀ r ∈ q :: rest2, ∀ c ∈ r, c ≠ '/' :=
        fun r hr => h r (List.mem_cons_of_mem _ hr)
      have hrec := ih (List.cons_ne_nil q rest2) htail
      rw [joinJobChars, List.append_assoc, countJobSep_append _ _ hp,
        countJobSep_sep, hrec]
      · simp
      · exact List.cons_ne_nil q rest2

/-- C3: for every slash-delimited job path with `n ≥ 2` segments, the encoded
path built by `jenkins_request_nested` percent-encodes each segment
individually, joins them with `/job/`, and therefore contains exactly `n - 1`
occurrences of `/job/` (counted non-overlapping, as Python's `str.count`
does). -/
theorem nested_path_encoding_sep_count (job_path : String)
    (h : 2 ≤ (pySplitSlash job_path.data).length) :
    countJobSep (encodedNestedPath job_path).data =
      (pySplitSlash job_path.data).length - 1 := by
  unfold encodedNestedPath
  rw [countJobSep_joinJob]
  · simp
  · intro hempty
    rw [List.map_eq_nil_iff] at hempty
    rw [hempty] at h
    simp at h
  · intro p hp
    rcases List.mem_map.mp hp with ⟨seg, _, rfl⟩
    exact pythonQuoteChars_no_slash seg

/-- Witness for C3 at the concrete path `folder1/sub/my-job`. -/
theorem nested_path_encoding_sep_count_witness :
    2 ≤ (pySplitSlash ("folder1/sub/my-job" : String).data).length ∧
    countJobSep (encodedNestedPath "folder1/sub/my-job").data =
      (pySplitSlash ("folder1/sub/my-job" : String).data).length - 1 :=
  ⟨by decide, nested_path_encoding_sep_count "folder1/sub/my-job" (by decide)⟩

/-! ## Errors, tree items and the recursive tree walk -/

/-- Errors raised by the modelled Jenkins HTTP layer.  `httpError` is
`requests.exceptions.HTTPError` carrying `e.response.status_code`; `exc`
covers every other exception (network failures, `ValueError`,
`AttributeError`, ...). -/
inductive JenkinsError where
  | httpError (status : Nat)
  | exc (msg : String)
  deriving DecidableEq

/-- One entry of the `jobs` array of a folder/root `api/json` response, with
the source's `item.get(..., "")` defaults already applied
(source lines 636-640). -/
structure RawItem where
  name : String
  _class : String
  url : String
  description : String
  deriving DecidableEq

/-- The `JobTreeItem` response model (source lines 147-152). -/
structure JobTreeItem where
  name : String
  full_name : String
  type : String
  url : Option String
  description : Option String
  deriving DecidableEq

/-- ASCII model of Python's `str.lower()`. -/
def lowerStr (s : String) : String :=
  String.mk (s.data.map Char.toLower)

/-- Is `pat` a prefix of `l`? (helper for substring containment). -/
def isPrefixL : List Char → List Char → Bool
  | [], _ => true
  | _ :: _, [] => false
  | a :: as, b :: bs => a = b && isPrefixL as bs

/-- Python's `needle in hay` on strings: `needle` occurs as a contiguous
substring of `hay` (the empty needle always occurs). -/
def strContainsSub (hay needle : String) : Bool :=
  containsAux hay.data needle.data
where
  containsAux : List Char → List Char → Bool
    | hay, needle =>
      isPrefixL needle hay ||
        match hay with
        | [] => false
        | _ :: t => containsAux t needle

/-- Python's `'/' in job_name`. -/
def strContainsChar (s : String) (c : Char) : Bool :=
  s.data.contains c

/-- The folder test of source line 646: `"folder" in item_class.lower()`. -/
def isFolderClass (cls : String) : Bool :=
  strContainsSub (lowerStr cls) "folder"

/-- Model of `full_name = f"{path}/{item_name}" if path else item_name`
(source line 643). -/
def fullNameOf (path name : String) : String :=
  if path = "" then name else path ++ "/" ++ name

/-- The `JobTreeItem` built for a raw child of `path`
(source lines 646-668), without the recursive descent. -/
def boundaryItem (path : String) (item : RawItem) : JobTreeItem :=
  { name := item.name
    full_name := fullNameOf path item.name
    type := if isFolderClass item._class then "folder" else "job"
    url := some item.url
    description := some item.description }

/-- The remote listing oracle: the parsed `jobs` array of
`GET <path>/api/json` (the empty path is the top-level listing), or the
exception the fetch raised. -/
abbrev TreeOracle := String → Except JenkinsError (List RawItem)

/-- Recursion core of `_collect_jobs_recursive`: `fuel` is
`max_depth - current_depth`, which the source decreases by one at every
descent (see `_collect_jobs_recursive` below for the correspondence).  A
failed fetch yields `[]` for that subtree (source lines 672-674); a folder
child is listed itself and then its subtree is appended in order
(source lines 646-668). -/
def collectGo (tree : TreeOracle) : Nat → String → List JobTreeItem
  | 0, _ => []
  | fuel + 1, path =>
    match tree path with
    | .error _ => []
    | .ok items =>
      items.flatMap fun item =>
        if isFolderClass item._class then
          boundaryItem path item ::
            collectGo tree fuel (fullNameOf path item.name)
        else
          [boundaryItem path item]

/-- Model of `_collect_jobs_recursive(path, context, max_depth, current_depth)`
(source lines 614-674).  The source returns `[]` as soon as
`current_depth >= max_depth` and recurses with `current_depth + 1`, so the
quantity `max_depth - current_depth` decreases by exactly one per level and
the walk always terminates; `collectGo` makes that fuel explicit. -/
def _collect_jobs_recursive (tree : TreeOracle) (path : String)
    (max_depth : Nat) (current_depth : Nat) : List JobTreeItem :=
  collectGo tree (max_depth - current_depth) path

/-- Point update of a tree oracle: the server behaves as `tree` everywhere
except at path `q`, where it returns `r`. -/
def updateTree (tree : TreeOracle) (q : String)
    (r : Except JenkinsError (List RawItem)) : TreeOracle :=
  fun p => if p = q then r else tree p

theorem flatMap_congr_mem {α β : Type} (l : List α) (f g : α → List β)
    (h : ∀ a ∈ l, f a = g a) : l.flatMap f = l.flatMap g := by
  induction l with
  | nil => rfl
  | cons a l ih =>
    rw [List.flatMap_cons, List.flatMap_cons,
      h a (List.mem_cons_self a l), ih fun b hb => h b (List.mem_cons_of_mem a hb)]

/-- C4: the tree walk is depth-bounded: at depth `d ≥ max_depth` it returns
the empty sequence for every server (in particular it performs no fetch
there); `max_depth = 0` gives the empty sequence regardless of server
contents; and one level below the bound every child — folders included — is
listed without any recursive descent, so the walk never recurses into a
folder discovered at depth `max_depth`.  Totality of the walk is witnessed
by `_collect_jobs_recursive` being a total Lean function. -/
theorem collect_depth_bounded :
    (∀ (tree : TreeOracle) (path : String) (max_depth current_depth : Nat),
      max_depth ≤ current_depth →
      _collect_jobs_recursive tree path max_depth current_depth = []) ∧
    (∀ (tree : TreeOracle) (path : String),
      _collect_jobs_recursive tree path 0 0 = []) ∧
    (∀ (tree : TreeOracle) (path : String) (d : Nat)
      (items : List RawItem), tree path = .ok items →
      _collect_jobs_recursive tree path (d + 1) d =
        items.map (boundaryItem path)) := by
  refine ⟨?_, ?_, ?_⟩
  · intro tree path maxd d h
    unfold _collect_jobs_recursive
    rw [show maxd - d = 0 by omega]
    rfl
  · intro tree path
    rfl
  · intro tree path d items h
    unfold _collect_jobs_recursive
    rw [show d + 1 - d = 1 by omega]
    rw [collectGo, h]
    show (items.flatMap fun item =>
        if isFolderClass item._class then
          boundaryItem path item :: collectGo tree 0 (fullNameOf path item.name)
        else [boundaryItem path item]) = items.map (boundaryItem path)
    clear h
    induction items with
    | nil => rfl
    | cons item rest ih =>
      rw [List.flatMap_cons, List.map_cons, ih]
      by_cases hf : isFolderClass item._class
      · simp [hf, collectGo]
      · simp [hf]

/-- A one-folder fixture item for the tree-walk witnesses. -/
def demoFolderItem : RawItem :=
  { name := "a", _class := "com.cloudbees.hudson.plugins.folder.Folder",
    url := "u", description := "" }

/-- A fixture server that reports the same single folder at every path. -/
def demoTree : TreeOracle := fun _ => .ok [demoFolderItem]

/-- A fixture server whose every fetch fails with HTTP 500. -/
def errTree : TreeOracle := fun _ => .error (.httpError 500)

/-- Witness for C4 on a concrete server holding one folder: the walk stops
at the depth bound, and at the last level the folder is listed flat. -/
theorem collect_depth_bounded_witness :
    (3 ≤ 5 ∧ _collect_jobs_recursive demoTree "" 3 5 = []) ∧
    (demoTree "root" = .ok [demoFolderItem] ∧
      _collect_jobs_recursive demoTree "root" 8 7 =
        [demoFolderItem].map (boundaryItem "root")) :=
  ⟨⟨by omega, collect_depth_bounded.1 demoTree "" 3 5 (by omega)⟩,
   rfl, (collect_depth_bounded.2.2) demoTree "root" 7 [demoFolderItem] rfl⟩

/-- C7: the tree walk never raises: a failed fetch of the current path
yields the empty sequence, and replacing any one subtree's response by an
error produces exactly the walk in which that subtree is empty — the partial
results of every other subtree are preserved. -/
theorem collect_error_isolation :
    (∀ (tree : TreeOracle) (path : String) (max_depth current_depth : Nat)
      (e : JenkinsError), tree path = .error e →
      _collect_jobs_recursive tree path max_depth current_depth = []) ∧
    (∀ (tree : TreeOracle) (root q : String) (e : JenkinsError)
      (max_depth current_depth : Nat),
      _collect_jobs_recursive (updateTree tree q (.error e)) root
          max_depth current_depth =
        _collect_jobs_recursive (updateTree tree q (.ok [])) root
          max_depth current_depth) := by
  constructor
  · intro tree path maxd d e h
    unfold _collect_jobs_recursive
    cases hf : maxd - d with
    | zero => rfl
    | succ f => rw [collectGo, h]
  · intro tree root q e maxd d
    unfold _collect_jobs_recursive
    generalize maxd - d = fuel
    induction fuel generalizing root with
    | zero => rfl
    | succ f ih =>
      rw [collectGo, collectGo]
      by_cases hq : root = q
      · simp only [updateTree, hq, if_pos rfl]
        rfl
      · simp only [updateTree, if_neg hq]
        cases tree root with
        | error e2 => rfl
        | ok items =>
          refine flatMap_congr_mem items _ _ fun item _ => ?_
          by_cases hf : isFolderClass item._class
          · simp only [hf, if_pos rfl, if_true]
            rw [ih]
          · simp [hf]

/-- Witness for C7: a server whose every fetch fails yields the empty walk. -/
theorem collect_error_isolation_witness :
    errTree "" = .error (.httpError 500) ∧
    _collect_jobs_recursive errTree "" 10 0 = [] :=
  ⟨rfl, collect_error_isolation.1 errTree "" 10 0 (.httpError 500) rfl⟩

/-! ## `fnmatch`-style wildcard matching

Model of CPython's `fnmatch.fnmatch` as used by the source (both arguments
are lowercased by the callers, so the OS-dependent case normalization inside
`fnmatch` is irrelevant).  A pattern is tokenized exactly as
`fnmatch.translate` does — `*` any run, `?` one character, `[...]`
character classes with `!` negation and `-` ranges, an unterminated `[`
taken literally — and then matched against the whole string. -/

/-- One token of a translated wildcard pattern. -/
inductive Tok where
  | star
  | any
  | lit (c : Char)
  | cls (negated : Bool) (content : List Char)
  deriving DecidableEq

/-- Split a character list at the first `]`, returning the part before it
and the rest after it. -/
def splitAtRBracket : List Char → Option (List Char × List Char)
  | [] => none
  | ']' :: rest => some ([], rest)
  | c :: cs =>
    match splitAtRBracket cs with
    | none => none
    | some (a, b) => some (c :: a, b)

/-- Scan a character-class body (the part after `[`), following
`fnmatch.translate`: an optional leading `!` negates; a `]` directly after
`[` or `[!` belongs to the class; the class ends at the next `]`.  Returns
`(negated, content, rest-of-pattern)`, or `none` when no closing `]`
exists. -/
def scanClass (ps : List Char) : Option (Bool × List Char × List Char) :=
  match ps with
  | '!' :: ']' :: rest2 =>
    match splitAtRBracket rest2 with
    | none => none
    | some (a, b) => some (true, ']' :: a, b)
  | '!' :: rest =>
    match splitAtRBracket rest with
    | none => none
    | some (a, b) => some (true, a, b)
  | ']' :: rest2 =>
    match splitAtRBracket rest2 with
    | none => none
    | some (a, b) => some (false, ']' :: a, b)
  | _ =>
    match splitAtRBracket ps with
    | none => none
    | some (a, b) => some (false, a, b)

/-- Tokenizer core with explicit fuel (one unit per consumed pattern
character; `parsePat` supplies enough fuel for the whole pattern). -/
def parsePatF : Nat → List Char → List Tok
  | 0, _ => []
  | _ + 1, [] => []
  | f + 1, '*' :: ps => .star :: parsePatF f ps
  | f + 1, '?' :: ps => .any :: parsePatF f ps
  | f + 1, '[' :: ps =>
    match scanClass ps with
    | some (neg, content, rest) => .cls neg content :: parsePatF f rest
    | none => .lit '[' :: parsePatF f ps
  | f + 1, c :: ps => .lit c :: parsePatF f ps

/-- Tokenize a wildcard pattern. -/
def parsePat (p : List Char) : List Tok :=
  parsePatF (p.length + 1) p

/-- Does character `c` belong to a class body?  `a-b` is a range, `-` in a
position with no right endpoint is literal. -/
def matchSet : List Char → Char → Bool
  | [], _ => false
  | a :: '-' :: b :: rest, c =>
    (decide (a ≤ c) && decide (c ≤ b)) || matchSet rest c
  | a :: rest, c => a = c || matchSet rest c

/-- Matcher core with explicit fuel (every step shortens tokens + input;
`matchToks` supplies enough fuel). -/
def matchToksF : Nat → List Tok → List Char → Bool
  | 0, _, _ => false
  | _ + 1, [], [] => true
  | _ + 1, [], _ :: _ => false
  | f + 1, .star :: ts, s =>
    matchToksF f ts s ||
      (match s with
       | [] => false
       | _ :: s2 => matchToksF f (.star :: ts) s2)
  | f + 1, .any :: ts, s =>
    (match s with
     | [] => false
     | _ :: s2 => matchToksF f ts s2)
  | f + 1, .lit a :: ts, s =>
    (match s with
     | [] => false
     | c :: s2 => a = c && matchToksF f ts s2)
  | f + 1, .cls neg content :: ts, s =>
    (match s with
     | [] => false
     | c :: s2 => (matchSet content c != neg) && matchToksF f ts s2)

/-- Match a token list against a whole string. -/
def matchToks (toks : List Tok) (s : List Char) : Bool :=
  matchToksF (toks.length + s.length + 1) toks s

/-- Model of `fnmatch.fnmatch(name, pat)` (no extra case folding: the source always
passes already-lowercased arguments). -/
def fnmatch (name pat : String) : Bool :=
  matchToks (parsePat pat.data) name.data

/-! ## `search_jobs` and `search_and_trigger` -/

/-- Model of `search_jobs(pattern, job_type, max_depth)` (source lines 733-777):
walk the whole tree from the root with the given depth bound, filter by
item type, then keep the items whose name or full name matches the pattern
case-insensitively. -/
def search_jobs (tree : TreeOracle) (pattern : String) (job_type : String)
    (max_depth : Nat) : List JobTreeItem :=
  let all_items := _collect_jobs_recursive tree "" max_depth 0
  let filtered_items :=
    if job_type = "job" then all_items.filter (fun item => item.type == "job")
    else if job_type = "folder" then
      all_items.filter (fun item => item.type == "folder")
    else all_items
  filtered_items.filter fun item =>
    fnmatch (lowerStr item.name) (lowerStr pattern) ||
      fnmatch (lowerStr item.full_name) (lowerStr pattern)

/-- The response of the `Location` header of a trigger POST. -/
structure PostResponse where
  location : Option String
  deriving DecidableEq

/-- The `TriggerJobResponse` model (source lines 97-101). -/
structure TriggerJobResponse where
  job_name : String
  status : String
  queue_url : Option String
  processed_params : Option (List (String × String))
  deriving DecidableEq

/-- The trigger collaborator used by `search_and_trigger`: the behaviour of
`trigger_job(job_path, params)`. -/
abbrev TriggerCollab :=
  String → Option (List (String × PyValue)) → Except JenkinsError TriggerJobResponse

/-- The three result shapes `search_and_trigger` can return
(source lines 799-822). -/
inductive SearchTriggerOutcome where
  | noMatch (pattern suggestion : String)
  | success (matched : JobTreeItem) (trigger_result : TriggerJobResponse)
  | ambiguous (pattern : String) (found : List JobTreeItem) (suggestion : String)
  deriving DecidableEq

/-- Model of `search_and_trigger(pattern, params, max_depth)` (source lines 780-826):
search for Job-kind matches; zero matches gives a structured no-match result
with a broadened-pattern suggestion, exactly one match delegates to the
trigger collaborator on that match's `full_name`, two or more matches give
a structured ambiguous result listing all matches without any trigger
call. -/
def search_and_trigger (tree : TreeOracle) (trig : TriggerCollab)
    (pattern : String) (params : Option (List (String × PyValue)))
    (max_depth : Nat) : Except JenkinsError SearchTriggerOutcome :=
  let found := search_jobs tree pattern "job" max_depth
  match found with
  | [] =>
    .ok (.noMatch pattern
      ("Try using search_jobs('" ++ pattern ++ "*') or search_jobs('*" ++
        pattern ++ "*') for broader search"))
  | [m] =>
    match trig m.full_name params with
    | .ok r => .ok (.success m r)
    | .error e => .error e
  | ms =>
    .ok (.ambiguous pattern ms
      "Use a more specific pattern or call trigger_job with the exact path")

/-- C1: `search_and_trigger` triggers only on an exactly-one-element search
result, delegating to the trigger collaborator with that match's
`full_name`; zero matches give the structured no-match result with a
broadened-pattern suggestion and two or more matches give the structured
ambiguous result listing all matches — and in those two cases the result is
the same for every trigger collaborator, i.e. no trigger call is
performed. -/
theorem search_and_trigger_exactness (tree : TreeOracle) (pattern : String)
    (params : Option (List (String × PyValue))) (max_depth : Nat) :
    ∀ trig : TriggerCollab,
      search_and_trigger tree trig pattern params max_depth =
        match search_jobs tree pattern "job" max_depth with
        | [] =>
          .ok (.noMatch pattern
            ("Try using search_jobs('" ++ pattern ++ "*') or search_jobs('*" ++
              pattern ++ "*') for broader search"))
        | [m] => (trig m.full_name params).map (SearchTriggerOutcome.success m)
        | m1 :: m2 :: rest =>
          .ok (.ambiguous pattern (m1 :: m2 :: rest)
            "Use a more specific pattern or call trigger_job with the exact path") := by
  intro trig
  unfold search_and_trigger
  cases hs : search_jobs tree pattern "job" max_depth with
  | nil => rfl
  | cons m1 rest =>
    cases rest with
    | nil =>
      cases htr : trig m1.full_name params with
      | ok r => simp [htr, Except.map]
      | error e => simp [htr, Except.map]
    | cons m2 rest2 => rfl

/-! ## `get_job_info` (source lines 368-476) -/

/-- A declared job parameter as parsed by `get_job_info`
(source lines 399-406, `JobParameter` model at lines 116-121). -/
structure JobParameter where
  name : String
  type : String
  default_value : Option PyValue
  description : String
  choices : Option (List String)

/-- One entry of the job's `property` array, pre-parsed from JSON. -/
structure PropBlock where
  _class : String
  parameterDefinitions : List JobParameter

/-- The pre-parsed JSON body of a job's `api/json` endpoint, restricted to
the fields `get_job_info` reads. -/
structure JobApiData where
  description : Option String
  property : List PropBlock
  lastBuild : Option Nat

/-- The `JobInfo` model (source lines 123-128). -/
structure JobInfo where
  name : String
  description : Option String
  parameters : List JobParameter
  last_build_number : Option Nat
  last_build_status : Option String

/-- The `JobInfoResponse` model (source lines 130-136); optional fields
default to `None`. -/
structure JobInfoResponse where
  success : Bool
  job_info : Option JobInfo
  search_results : Option (List JobTreeItem)
  message : String
  suggestions : Option (List String)

/-- The abstract Jenkins server seen by `get_job_info`: the direct job
lookup (`GET <job>/api/json`, nested or flat depending on `'/' in name` —
both build the same lookup, only the URL encoding differs) and the folder
listing oracle used by the tree walk. -/
structure Jenkins where
  direct : String → Except JenkinsError JobApiData
  tree : TreeOracle

/-- Parsing of a successful direct lookup into a `JobInfo`
(source lines 395-417): the first property block whose `_class` is
`hudson.model.ParametersDefinitionProperty` supplies the parameters. -/
def parseJobInfo (job_name : String) (data : JobApiData) : JobInfo :=
  let param_prop :=
    data.property.find? (fun p => p._class == "hudson.model.ParametersDefinitionProperty")
  let parameters :=
    match param_prop with
    | some pp => pp.parameterDefinitions
    | none => []
  { name := job_name
    description := data.description
    parameters := parameters
    last_build_number := data.lastBuild
    last_build_status := none }

/-- The search-fallback filter of `get_job_info` (source lines 433-443):
walk the whole tree with depth bound 10, keep Job-kind items, and keep those
whose name or full name matches the queried name by case-insensitive
wildcard pattern or case-insensitive substring containment. -/
def jobInfoFallbackMatches (tree : TreeOracle) (job_name : String) :
    List JobTreeItem :=
  let all_items := _collect_jobs_recursive tree "" 10 0
  let jobs_only := all_items.filter (fun item => item.type == "job")
  jobs_only.filter fun job =>
    fnmatch (lowerStr job.name) (lowerStr job_name) ||
      fnmatch (lowerStr job.full_name) (lowerStr job_name) ||
      strContainsSub (lowerStr job.name) (lowerStr job_name) ||
      strContainsSub (lowerStr job.full_name) (lowerStr job_name)

/-- Model of `get_job_info(job_name, auto_search)` (source lines 368-476): direct
lookup first; on an HTTP 404 with `auto_search` enabled, fall back to the
tree search; every other error — and a 404 with `auto_search` disabled —
is re-raised unchanged. -/
def get_job_info (J : Jenkins) (job_name : String) (auto_search : Bool) :
    Except JenkinsError JobInfoResponse :=
  match J.direct job_name with
  | .ok data =>
    .ok { success := true
          job_info := some (parseJobInfo job_name data)
          search_results := none
          message := "Found job '" ++ job_name ++ "' directly"
          suggestions := none }
  | .error e =>
    match e with
    | .httpError status =>
      if status == 404 && auto_search then
        match jobInfoFallbackMatches J.tree job_name with
        | [] =>
          .ok { success := false
                job_info := none
                search_results := none
                message := "Job '" ++ job_name ++ "' not found and no similar jobs found"
                suggestions := some
                  ["Try: search_jobs('*" ++ job_name ++ "*')",
                   "Or: list_jobs(recursive=True) to see all available jobs"] }
        | m :: ms =>
          .ok { success := false
                job_info := none
                search_results := some (m :: ms)
                message := "Job '" ++ job_name ++ "' not found directly, but found " ++
                  toString (m :: ms).length ++ " similar jobs"
                suggestions := some
                  ["Use exact path: get_job_info('" ++ m.full_name ++ "')",
                   "Or try search_jobs() for more search options"] }
      else .error (.httpError status)
    | .exc msg => .error (.exc msg)

/-- C5: on a 404 direct lookup with `auto_search` enabled, `get_job_info`
returns the fallback computed from the whole-tree walk filtered to job-kind
items matched by case-insensitive wildcard or substring containment
(`jobInfoFallbackMatches`): with no match, a miss (`success = false`) with
no search results and two generic suggestions; with matches, the matches as
`search_results` and a first suggestion quoting the first match's exact full
path. -/
theorem get_job_info_fallback (J : Jenkins) (job_name : String)
    (h : J.direct job_name = .error (.httpError 404)) :
    get_job_info J job_name true =
      .ok (match jobInfoFallbackMatches J.tree job_name with
        | [] =>
          { success := false
            job_info := none
            search_results := none
            message := "Job '" ++ job_name ++ "' not found and no similar jobs found"
            suggestions := some
              ["Try: search_jobs('*" ++ job_name ++ "*')",
               "Or: list_jobs(recursive=True) to see all available jobs"] }
        | m :: ms =>
          { success := false
            job_info := none
            search_results := some (m :: ms)
            message := "Job '" ++ job_name ++ "' not found directly, but found " ++
              toString (m :: ms).length ++ " similar jobs"
            suggestions := some
              ["Use exact path: get_job_info('" ++ m.full_name ++ "')",
               "Or try search_jobs() for more search options"] }) := by
  unfold get_job_info
  rw [h]
  cases hm : jobInfoFallbackMatches J.tree job_name with
  | nil => rfl
  | cons m ms => rfl

/-- A fixture server for the C5 witness: every direct lookup answers 404 and
the tree is empty. -/
def miss404Jenkins : Jenkins :=
  { direct := fun _ => .error (.httpError 404)
    tree := fun _ => .ok [] }

/-- Witness for C5 at the concrete query `nonexistent` against a server with
an empty tree. -/
theorem get_job_info_fallback_witness :
    miss404Jenkins.direct "nonexistent" = .error (.httpError 404) ∧
    get_job_info miss404Jenkins "nonexistent" true =
      .ok (match jobInfoFallbackMatches miss404Jenkins.tree "nonexistent" with
        | [] =>
          { success := false
            job_info := none
            search_results := none
            message := "Job '" ++ "nonexistent" ++ "' not found and no similar jobs found"
            suggestions := some
              ["Try: search_jobs('*" ++ "nonexistent" ++ "*')",
               "Or: list_jobs(recursive=True) to see all available jobs"] }
        | m :: ms =>
          { success := false
            job_info := none
            search_results := some (m :: ms)
            message := "Job '" ++ "nonexistent" ++ "' not found directly, but found " ++
              toString (m :: ms).length ++ " similar jobs"
            suggestions := some
              ["Use exact path: get_job_info('" ++ m.full_name ++ "')",
               "Or try search_jobs() for more search options"] }) :=
  ⟨rfl, get_job_info_fallback miss404Jenkins "nonexistent" rfl⟩

/-- C6: any HTTP error with a status other than 404, and a 404 when
`auto_search` is disabled, propagates out of `get_job_info` unchanged — no
synthesized suggestion object is returned. -/
theorem get_job_info_error_propagation (J : Jenkins) (job_name : String)
    (auto_search : Bool) (e : JenkinsError)
    (hdir : J.direct job_name = .error e)
    (hcase : (∃ s, e = .httpError s ∧ s ≠ 404) ∨
      (e = .httpError 404 ∧ auto_search = false)) :
    get_job_info J job_name auto_search = .error e := by
  unfold get_job_info
  rw [hdir]
  rcases hcase with ⟨s, rfl, hs⟩ | ⟨rfl, rfl⟩
  · simp [hs]
  · simp

/-- A fixture server answering HTTP 500 on direct lookups, for the C6
witness. -/
def err500Jenkins : Jenkins :=
  { direct := fun _ => .error (.httpError 500)
    tree := fun _ => .ok [] }

/-- Witness for C6: a 500 on direct lookup propagates unchanged. -/
theorem get_job_info_error_propagation_witness :
    err500Jenkins.direct "myjob" = .error (.httpError 500) ∧
    get_job_info err500Jenkins "myjob" true = .error (.httpError 500) :=
  ⟨rfl, get_job_info_error_propagation err500Jenkins "myjob" true
    (.httpError 500) rfl (.inl ⟨500, rfl, by omega⟩)⟩

/-! ## `trigger_job` (source lines 300-366) -/

/-- Numbered `"  {i}. {suggestion}"` lines of `create_job_not_found_error`. -/
def numberSuggestions : Nat → List String → List String
  | _, [] => []
  | i, s :: rest => ("  " ++ toString i ++ ". " ++ s) :: numberSuggestions (i + 1) rest

/-- Model of `create_job_not_found_error(job_name, operation)` (source lines
277-296): the numbered discovery-tool suggestions, with the wildcardised
variant skipped when the name already contains `*`; the built message is
`.strip()`-ed, removing the final newline. -/
def create_job_not_found_error (job_name operation : String) : String :=
  let suggestions :=
    ["search_jobs('" ++ job_name ++ "')"] ++
      (if strContainsChar job_name '*' then []
       else ["search_jobs('*" ++ job_name ++ "*')"]) ++
      ["list_jobs(recursive=True)",
       "get_job_info('" ++ job_name ++ "', auto_search=True)"]
  "Job '" ++ job_name ++ "' not found for " ++ operation ++
    ". Try these discovery tools:" ++ "\n" ++
    strJoin "\n" (numberSuggestions 1 suggestions)

/-- The HTTP POST collaborator for triggering: given whether the nested
request helper was chosen (`'/' in job_name`), the job path, the endpoint
(`buildWithParameters` or `build`) and the urlencoded form data, it returns
the response or the raised error.  This models lines 320-343 in which both
branches post to the same endpoint suffix and differ only in URL
construction. -/
abbrev PostCollab :=
  Bool → String → String → Option (List (String × String)) →
    Except JenkinsError PostResponse

/-- The shared tail of `trigger_job`: perform the POST, build the
`TriggerJobResponse` from the `Location` header on success
(source lines 345-353), and on an HTTP 404 raise the helpful
`create_job_not_found_error` message as a `ValueError`
(source lines 355-363); every other error propagates. -/
def trigger_request (post : PostCollab) (job_name endpoint : String)
    (processed : Option (List (String × String))) :
    Except JenkinsError TriggerJobResponse :=
  match post (strContainsChar job_name '/') job_name endpoint processed with
  | .ok r =>
    .ok { job_name := job_name, status := "Triggered",
          queue_url := r.location, processed_params := processed }
  | .error (.httpError status) =>
    if status == 404 then
      .error (.exc (create_job_not_found_error job_name "triggering"))
    else .error (.httpError status)
  | .error e => .error e

/-- Model of `jenkins_params = params.get('args', {}).get('params', params) if params
else None` (source line 314).  An empty `params` dictionary is falsy, so it
yields `None`; a present `'args'` value must itself support `.get` — a
non-mapping raises `AttributeError`. -/
def trigger_extract_params (params : Option (List (String × PyValue))) :
    Except JenkinsError (Option PyValue) :=
  match params with
  | none => .ok none
  | some p =>
    if p.isEmpty then .ok none
    else
      match (assocGet p "args").getD (.dict []) with
      | .dict d => .ok (some ((assocGet d "params").getD (.dict p)))
      | _ => .error (.exc "AttributeError")

/-- The body of `trigger_job` after `jenkins_params` has been computed
(source lines 316-343): trigger through `buildWithParameters` with the
normalized parameters when `jenkins_params` is truthy, and through the plain
`build` endpoint otherwise.  A truthy non-mapping value reaches
`process_jenkins_parameters(...)`, whose `params.items()` raises
`AttributeError`; an extraction error propagates (re-raised at line 366). -/
def trigger_dispatch (post : PostCollab) (job_name : String) :
    Except JenkinsError (Option PyValue) → Except JenkinsError TriggerJobResponse
  | .error e => .error e
  | .ok (some v) =>
    if pyTruthyV v then
      match v with
      | .dict d =>
        trigger_request post job_name "buildWithParameters"
          (some (process_jenkins_parameters d))
      | _ => .error (.exc "AttributeError")
    else trigger_request post job_name "build" none
  | .ok none => trigger_request post job_name "build" none

/-- Model of `trigger_job(job_name, params)` (source lines 300-366): extract the
effective parameter mapping (line 314), then dispatch to the trigger
endpoints. -/
def trigger_job (post : PostCollab) (job_name : String)
    (params : Option (List (String × PyValue))) :
    Except JenkinsError TriggerJobResponse :=
  trigger_dispatch post job_name (trigger_extract_params params)

/-- A collaborator whose every POST succeeds with queue URL `Q`, used by the
C10 counterexample and witness. -/
def okPost : PostCollab := fun _ _ _ _ => .ok { location := some "Q" }

/-- Counterexample to C10 as stated: for `params = {"args": 5}` — a `params`
mapping whose `'args'` member is not a mapping — `trigger_job` does not use
`params` itself (which, with an always-succeeding collaborator, would
produce a successful `buildWithParameters` trigger); it raises
`AttributeError`, because `params.get('args', {}).get('params', params)`
calls `.get` on the integer `5`. -/
theorem trigger_job_args_nonmapping_counterexample :
    trigger_job okPost "demo" (some [("args", PyValue.int 5)]) =
      .error (.exc "AttributeError") ∧
    trigger_job okPost "demo" (some [("args", PyValue.int 5)]) ≠
      .ok { job_name := "demo", status := "Triggered", queue_url := some "Q",
            processed_params := some [("args", "5")] } := by
  constructor
  · rfl
  · intro h
    exact Except.noConfusion h

theorem trigger_extract_eq (p : List (String × PyValue))
    (hp : p.isEmpty = false) :
    trigger_extract_params (some p) =
      match (assocGet p "args").getD (.dict []) with
      | .dict d => .ok (some ((assocGet d "params").getD (.dict p)))
      | _ => .error (.exc "AttributeError") := by
  unfold trigger_extract_params
  simp only [hp, Bool.false_eq_true, if_false]

/-- C10 (amended): for non-`None` `params` whose `'args'` member, when
present, is a mapping: if that mapping contains `'params'`, its value is
used as the effective build-parameter mapping; otherwise `params` itself is
used (an empty `params` is falsy and yields no mapping at all).  The job is
triggered via `buildWithParameters` with the normalized parameters iff the
effective mapping is non-empty, and via plain `build` otherwise.  When
`'args'` is present with a non-mapping value, `trigger_job` raises
(`AttributeError`) instead of using `params` itself. -/
theorem trigger_job_param_extraction (post : PostCollab) (job_name : String) :
    (trigger_job post job_name none = trigger_request post job_name "build" none) ∧
    (∀ p : List (String × PyValue), p = [] →
      trigger_job post job_name (some p) =
        trigger_request post job_name "build" none) ∧
    (∀ p : List (String × PyValue), p ≠ [] → assocGet p "args" = none →
      trigger_job post job_name (some p) =
        trigger_request post job_name "buildWithParameters"
          (some (process_jenkins_parameters p))) ∧
    (∀ p d, p ≠ [] → assocGet p "args" = some (.dict d) →
      assocGet d "params" = none →
      trigger_job post job_name (some p) =
        trigger_request post job_name "buildWithParameters"
          (some (process_jenkins_parameters p))) ∧
    (∀ p d d2, p ≠ [] → assocGet p "args" = some (.dict d) →
      assocGet d "params" = some (.dict d2) →
      trigger_job post job_name (some p) =
        (if d2.isEmpty then trigger_request post job_name "build" none
         else trigger_request post job_name "buildWithParameters"
           (some (process_jenkins_parameters d2)))) ∧
    (∀ p v, p ≠ [] → assocGet p "args" = some v → (∀ d, v ≠ .dict d) →
      trigger_job post job_name (some p) = .error (.exc "AttributeError")) := by
  have hne : ∀ p : List (String × PyValue), p ≠ [] → p.isEmpty = false := by
    intro p hp
    cases p with
    | nil => exact absurd rfl hp
    | cons a l => rfl
  refine ⟨rfl, ?_, ?_, ?_, ?_, ?_⟩
  · intro p hp
    subst hp
    rfl
  · intro p hp hargs
    have hx : trigger_extract_params (some p) = .ok (some (.dict p)) := by
      rw [trigger_extract_eq p (hne p hp), hargs]
      simp [assocGet]
    unfold trigger_job
    rw [hx]
    simp [trigger_dispatch, pyTruthyV, hne p hp]
  · intro p d hp hargs hparams
    have hx : trigger_extract_params (some p) = .ok (some (.dict p)) := by
      rw [trigger_extract_eq p (hne p hp), hargs]
      simp [hparams]
    unfold trigger_job
    rw [hx]
    simp [trigger_dispatch, pyTruthyV, hne p hp]
  · intro p d d2 hp hargs hparams
    have hx : trigger_extract_params (some p) = .ok (some (.dict d2)) := by
      rw [trigger_extract_eq p (hne p hp), hargs]
      simp [hparams]
    unfold trigger_job
    rw [hx]
    by_cases h2 : d2.isEmpty
    · simp [trigger_dispatch, pyTruthyV, h2]
    · simp only [Bool.not_eq_true] at h2
      simp [trigger_dispatch, pyTruthyV, h2]
  · intro p v hp hargs hnd
    have hx : trigger_extract_params (some p) = .error (.exc "AttributeError") := by
      rw [trigger_extract_eq p (hne p hp), hargs]
      cases v with
      | dict d => exact absurd rfl (hnd d)
      | str s => rfl
      | bool b => rfl
      | int n => rfl
      | list l => rfl
    unfold trigger_job
    rw [hx]
    rfl

/-- Witness for the amended C10 at concrete inputs: without an `'args'` key
the mapping itself is used and the parameterized endpoint is chosen; with a
nested `args.params` mapping, the inner mapping is used. -/
theorem trigger_job_param_extraction_witness :
    (([("x", PyValue.str "1")] : List (String × PyValue)) ≠ [] ∧
      assocGet [("x", PyValue.str "1")] "args" = none ∧
      trigger_job okPost "j" (some [("x", PyValue.str "1")]) =
        trigger_request okPost "j" "buildWithParameters"
          (some (process_jenkins_parameters [("x", PyValue.str "1")]))) ∧
    (trigger_job okPost "j"
        (some [("args", PyValue.dict [("params", PyValue.dict [("y", PyValue.int 2)])])]) =
      (if ([("y", PyValue.int 2)] : List (String × PyValue)).isEmpty then
        trigger_request okPost "j" "build" none
       else trigger_request okPost "j" "buildWithParameters"
        (some (process_jenkins_parameters [("y", PyValue.int 2)])))) :=
  ⟨⟨List.cons_ne_nil _ _, rfl,
    (trigger_job_param_extraction okPost "j").2.2.1 [("x", PyValue.str "1")]
      (List.cons_ne_nil _ _) rfl⟩,
   (trigger_job_param_extraction okPost "j").2.2.2.2.1
     [("args", PyValue.dict [("params", PyValue.dict [("y", PyValue.int 2)])])]
     [("params", PyValue.dict [("y", PyValue.int 2)])] [("y", PyValue.int 2)]
     (List.cons_ne_nil _ _) rfl rfl⟩

/-! ## Claim theorems for the crumb cache and parameter normalization -/

/-- Counterexample to C2 as stated: a fetch that succeeds with an *empty*
`crumb` field is neither a network error nor a missing token field, yet
`get_jenkins_crumb` does not cache or return it (the source's
`if crumb_token:` treats the empty string as absent): starting from the
empty cache it returns no token and leaves the cache unchanged, instead of
caching `""` with a 30-minute expiry and returning it. -/
theorem crumb_empty_token_counterexample :
    get_jenkins_crumb { token := none, expires := none } 0
        (.ok { crumb := some "" }) =
      (none, { token := none, expires := none }) ∧
    get_jenkins_crumb { token := none, expires := none } 0
        (.ok { crumb := some "" }) ≠
      (some "", { token := some "", expires := some (0 + 30 * 60) }) := by
  constructor
  · rfl
  · decide

/-- C2 (amended): on every cache state the source can reach (`CrumbWF`:
stored tokens are never empty), `get_jenkins_crumb` returns the cached token
without consulting the fetch oracle whenever a cached token exists and
`now < expires_at`; otherwise it performs the fetch, and on success with a
non-empty token field caches it with `expires_at = now + 30` minutes and
returns it; on fetch failure — a network/HTTP error, or a missing *or
empty* token field in the response body — it leaves the cache unchanged and
returns no token instead of raising. -/
theorem get_jenkins_crumb_cache_behavior (cache : CrumbCache) (now : Nat)
    (fetch : Except String CrumbResponse) (hwf : CrumbWF cache) :
    (∀ t e, cache.token = some t → cache.expires = some e → now < e →
      get_jenkins_crumb cache now fetch = (some t, cache)) ∧
    (∀ r tok, crumbCacheValid cache now = false → fetch = .ok r →
      r.crumb = some tok → tok ≠ "" →
      get_jenkins_crumb cache now fetch =
        (some tok, { token := some tok, expires := some (now + 30 * 60) })) ∧
    (∀ r, crumbCacheValid cache now = false →
      ((∃ msg, fetch = .error msg) ∨
        (fetch = .ok r ∧ (r.crumb = none ∨ r.crumb = some ""))) →
      get_jenkins_crumb cache now fetch = (none, cache)) := by
  refine ⟨?_, ?_, ?_⟩
  · intro t e ht he hlt
    have hv : crumbCacheValid cache now = true := by
      unfold crumbCacheValid
      rw [ht, he]
      simp [hwf t ht, hlt]
    unfold get_jenkins_crumb
    rw [hv, ht]
    simp
  · intro r tok hv hf hc htok
    unfold get_jenkins_crumb
    rw [hv, hf]
    simp only [Bool.false_eq_true, if_false]
    rw [hc]
    simp [htok]
  · intro r hv hcase
    unfold get_jenkins_crumb
    rw [hv]
    simp only [Bool.false_eq_true, if_false]
    rcases hcase with ⟨msg, hf⟩ | ⟨hf, hc⟩
    · rw [hf]
    · rw [hf]
      rcases hc with hc | hc
      · simp [hc]
      · simp [hc]

/-- Witness for the amended C2: a valid cached token at time 5 is returned
untouched even though the oracle would fail, and a fresh fetch at time 0 on
the empty cache stores the fetched token for 30 minutes. -/
theorem get_jenkins_crumb_cache_behavior_witness :
    get_jenkins_crumb { token := some "tok", expires := some 10 } 5
        (.error "network down") =
      (some "tok", { token := some "tok", expires := some 10 }) ∧
    get_jenkins_crumb { token := none, expires := none } 0
        (.ok { crumb := some "t" }) =
      (some "t", { token := some "t", expires := some (0 + 30 * 60) }) := by
  constructor
  · have h := (get_jenkins_crumb_cache_behavior
      { token := some "tok", expires := some 10 } 5 (.error "network down")
      (by intro t ht; cases ht; decide)).1 "tok" 10 rfl rfl (by omega)
    simpa using h
  · exact (get_jenkins_crumb_cache_behavior
      { token := none, expires := none } 0 (.ok { crumb := some "t" })
      (by intro t ht; cases ht)).2.1 { crumb := some "t" } "t" (by decide)
      rfl rfl (by decide)

/-- C9: the source executes the whole check-and-refresh sequence while
holding the single cache lock, so any interleaving of two concurrent
`get_or_refresh` calls is some sequential order of two atomic calls and no
caller can observe a half-written token.  For two such serialized calls at
times `n1 ≤ n2` inside one 30-minute validity window, with the refresh
oracle of the first call delivering a (non-empty) token: at most one of the
two calls performs a network fetch, and if the first call did fetch, the
second returns that same cached token untouched regardless of its own fetch
oracle. -/
theorem crumb_no_refresh_storm (cache : CrumbCache) (n1 n2 : Nat)
    (f1 : Except String CrumbResponse) (tok : String)
    (h12 : n1 ≤ n2) (hwin : n2 < n1 + 30 * 60)
    (hf1 : f1 = .ok { crumb := some tok }) (htok : tok ≠ "") :
    ((if crumbDidFetch cache n1 then 1 else 0) +
      (if crumbDidFetch (get_jenkins_crumb cache n1 f1).2 n2 then 1 else 0) ≤ 1) ∧
    (crumbDidFetch cache n1 = true →
      ∀ f2v, get_jenkins_crumb (get_jenkins_crumb cache n1 f1).2 n2 f2v =
        (some tok, (get_jenkins_crumb cache n1 f1).2)) := by
  by_cases hv : crumbCacheValid cache n1 = true
  · have hdf : crumbDidFetch cache n1 = false := by
      unfold crumbDidFetch
      rw [hv]
      rfl
    constructor
    · rw [hdf]
      simp only [Bool.false_eq_true, if_false, Nat.zero_add]
      split
      · omega
      · omega
    · intro hcontra
      rw [hdf] at hcontra
      exact absurd hcontra (by decide)
  · have hvf : crumbCacheValid cache n1 = false := by
      cases h : crumbCacheValid cache n1
      · rfl
      · exact absurd h hv
    have hstep : get_jenkins_crumb cache n1 f1 =
        (some tok, { token := some tok, expires := some (n1 + 30 * 60) }) := by
      unfold get_jenkins_crumb
      rw [hvf, hf1]
      simp [htok]
    have h2snd : (get_jenkins_crumb cache n1 f1).2 =
        { token := some tok, expires := some (n1 + 30 * 60) } := by
      rw [hstep]
    have hvalid2 : crumbCacheValid (get_jenkins_crumb cache n1 f1).2 n2 = true := by
      rw [h2snd]
      unfold crumbCacheValid
      simp [htok, hwin]
    have hdf : crumbDidFetch cache n1 = true := by
      unfold crumbDidFetch
      rw [hvf]
      rfl
    constructor
    · rw [hdf]
      unfold crumbDidFetch
      rw [hvalid2]
      simp
    · intro _ f2v
      rw [h2snd]
      unfold get_jenkins_crumb
      rw [show crumbCacheValid
          { token := some tok, expires := some (n1 + 30 * 60) } n2 = true by
        unfold crumbCacheValid
        simp [htok, hwin]]
      simp

/-- Witness for C9: first call at time 0 on the empty cache fetches token
`t`; the second call at time 100 performs no fetch and returns the same
token even though its own oracle is failing. -/
theorem crumb_no_refresh_storm_witness :
    (0 ≤ 100 ∧ 100 < 0 + 30 * 60 ∧ ("t" : String) ≠ "") ∧
    ((if crumbDidFetch { token := none, expires := none } 0 then 1 else 0) +
      (if crumbDidFetch
          (get_jenkins_crumb { token := none, expires := none } 0
            (.ok { crumb := some "t" })).2 100 then 1 else 0) ≤ 1) ∧
    (crumbDidFetch { token := none, expires := none } 0 = true →
      ∀ f2v, get_jenkins_crumb
          (get_jenkins_crumb { token := none, expires := none } 0
            (.ok { crumb := some "t" })).2 100 f2v =
        (some "t",
          (get_jenkins_crumb { token := none, expires := none } 0
            (.ok { crumb := some "t" })).2)) :=
  ⟨⟨by omega, by omega, by decide⟩,
    crumb_no_refresh_storm { token := none, expires := none } 0 100
      (.ok { crumb := some "t" }) "t"
      (by omega) (by omega) rfl (by decide)⟩

/-- C8: `process_jenkins_parameters` maps each list value to the comma-join
of its elements' `str` forms, each boolean to the lowercase literal
`"true"`/`"false"`, and every other value to its plain `str` form, keeping
keys; in particular the mapping
`{"flag": True, "tags": ["a","b"], "n": 5}` yields
`{"flag": "true", "tags": "a,b", "n": "5"}`. -/
theorem process_parameters_normalization :
    (∀ params : List (String × PyValue),
      process_jenkins_parameters params =
        params.map fun kv => (kv.1, processParamValue kv.2)) ∧
    (∀ l, processParamValue (.list l) = strJoin "," (l.map pyStrOf)) ∧
    (∀ b, processParamValue (.bool b) = if b then "true" else "false") ∧
    (∀ s, processParamValue (.str s) = pyStrOf (.str s)) ∧
    (∀ n, processParamValue (.int n) = pyStrOf (.int n)) ∧
    (∀ d, processParamValue (.dict d) = pyStrOf (.dict d)) ∧
    process_jenkins_parameters
        [("flag", .bool true), ("tags", .list [.str "a", .str "b"]),
         ("n", .int 5)] =
      [("flag", "true"), ("tags", "a,b"), ("n", "5")] :=
  ⟨fun _ => rfl, fun _ => rfl, fun _ => rfl, fun _ => rfl, fun _ => rfl,
    fun _ => rfl, by decide⟩

end JenkinsMCP
